import Mathlib

/-!
Verification of the winres resource-script generator (src/lib.rs).

This file gives a shallow embedding of the library's data model and
operations: the `WindowsResource` configuration record with its setters and
constructor `new`, the manifest-metadata reader `parse_cargo_toml`, the SDK
locator `get_sdk`, the resource-script emitter `write_resource_file`, and
the stdout behaviour of the toolchain drivers.  Machine integers (`u64`,
`u16`) are modelled as `Nat` with explicit truncation (`% 2 ^ 64`,
`% 2 ^ 16`) exactly where the Rust code truncates.  Fallible operations
return `Option`/`Except`: a Rust panic (a failing `unwrap`) is modelled as
`none`, a propagated `io::Error` as `Except.error`.  Text is modelled as
`List Char`; external collaborators (the process environment, the
filesystem, the TOML parser, the registry tool, the resource compilers) are
oracles passed in as parameters.
-/

namespace Winres

/-- Text is a list of characters (Rust `&str` processed via `.chars()`). -/
abbrev Chars := List Char

/-- Rust `str::trim`: remove whitespace from both ends of a line. -/
def trimChars (s : Chars) : Chars :=
  ((s.dropWhile Char.isWhitespace).reverse.dropWhile Char.isWhitespace).reverse

/-- Rust `line.replace("\x22", "\x22\x22")`: double every double-quote. -/
def doubleQuotes : Chars → Chars
  | [] => []
  | c :: t => if c = '"' then '"' :: '"' :: doubleQuotes t else c :: doubleQuotes t

/-- The emitted line for one source line of an inline manifest
(src/lib.rs line 397): `writeln!(f, "\x22{}\x22", line.replace("\x22", "\x22\x22").trim())`. -/
def emitManifestLine (s : Chars) : Chars :=
  '"' :: (trimChars (doubleQuotes s) ++ ['"'])

/-- Strip one carriage return from the end of a reversed accumulator and
reverse it (the `\r\n` handling of Rust `str::lines`). -/
def stripCRrev (acc : Chars) : Chars :=
  match acc with
  | '\r' :: t => t.reverse
  | _ => acc.reverse

/-- Worker for `rustLines`: `acc` is the current line, reversed. -/
def rlAux : Chars → Chars → List Chars
  | [], acc => [acc.reverse]
  | c :: rest, acc =>
    if c = '\n' then
      stripCRrev acc :: (if rest = [] then [] else rlAux rest [])
    else
      rlAux rest (c :: acc)

/-- Rust `str::lines`: split at `\n`, dropping a `\r` directly before each
`\n`, with no trailing empty line when the string ends in `\n`. -/
def rustLines (s : Chars) : List Chars :=
  match s with
  | [] => []
  | s => rlAux s []

/-- A lowercase hexadecimal digit (the digits used by Rust `{:x}`). -/
def hexDigit (n : Nat) : Char :=
  if n < 10 then Char.ofNat (48 + n) else Char.ofNat (87 + n)

/-- Worker for `hexRev`; the first argument is fuel, always at least the
number being converted. -/
def hexRevAux : Nat → Nat → Chars
  | _, 0 => []
  | 0, _ + 1 => []
  | f + 1, n + 1 => hexDigit ((n + 1) % 16) :: hexRevAux f ((n + 1) / 16)

/-- The hex digits of `n`, least significant first (empty for zero). -/
def hexRev (n : Nat) : Chars := hexRevAux n n

/-- Rust `{:x}`: minimal lowercase hexadecimal representation. -/
def rustHex (n : Nat) : Chars :=
  if n = 0 then ['0'] else (hexRev n).reverse

/-- Rust `{:04x}`: lowercase hexadecimal, zero-padded to width at least 4
(src/lib.rs line 378). -/
def fmtHex4 (n : Nat) : Chars :=
  List.replicate (4 - (rustHex n).length) '0' ++ rustHex n

/-- Value of a lowercase hex digit character. -/
def hexVal (c : Char) : Nat :=
  if c.isDigit then c.toNat - 48 else c.toNat - 87

/-- Read a big-endian string of lowercase hex digits back into a number. -/
def parseHexBE (l : Chars) : Nat :=
  l.foldl (fun a c => a * 16 + hexVal c) 0

/-- Rust `u64::from_str` (`str::parse::<u64>()`): an optional leading `+`,
then one or more decimal digits, value below `2 ^ 64`. -/
def parseU64 (s : String) : Option Nat :=
  let ds := match s.data with
    | '+' :: t => t
    | t => t
  if ds = [] then none
  else if ds.all Char.isDigit then
    let v := ds.foldl (fun a c => a * 10 + (c.toNat - 48)) 0
    if v < 2 ^ 64 then some v else none
  else none

/-- Rust `{}` on an unsigned integer: decimal representation. -/
def decRepr (n : Nat) : Chars :=
  (Nat.repr n).data

/-- Packing of four 16-bit words into a 64-bit version value, as performed
by `WindowsResource::new` and by `set_version_info` callers:
`(a << 48) | (b << 32) | (c << 16) | d` (src/lib.rs lines 173-177). -/
def packVersion (a b c d : Nat) : Nat :=
  ((a <<< 48) ||| (b <<< 32)) ||| (c <<< 16) ||| d

/-- Re-extraction of the four 16-bit words in `write_resource_file`
(src/lib.rs lines 369-372): `(v >> 48) as u16`, `(v >> 32) as u16`,
`(v >> 16) as u16`, `v as u16`. -/
def extractWords (v : Nat) : Nat × Nat × Nat × Nat :=
  ((v >>> 48) % 2 ^ 16, (v >>> 32) % 2 ^ 16, (v >>> 16) % 2 ^ 16, v % 2 ^ 16)

/-- A value of the nested-table package-manifest format, as the `toml`
crate exposes it to this library: the library only distinguishes string
values, tables, and everything else (`as_str`, `as_table`). -/
inductive TomlVal where
  | str (s : String)
  | table (kvs : List (String × TomlVal))
  | other

/-- The external TOML parser (`toml::Parser::new(..).parse()`), an oracle
from file content to an optional top-level table. -/
abbrev TomlParseFn := String → Option (List (String × TomlVal))

/-- The process environment (`std::env::var`), an oracle from variable name
to optional value. -/
abbrev Env := String → Option String

/-- `HashMap::insert` on the string-property map, modelled on an
association list that keeps first-insertion order (iteration order of the
real `HashMap` is unspecified; no claim depends on it). -/
def insertProp : List (String × String) → String → String → List (String × String)
  | [], k, v => [(k, v)]
  | (k', v') :: t, k, v =>
    if k' = k then (k, v) :: t else (k', v') :: insertProp t k v

/-- `Table::get` of the `toml` crate: association lookup. -/
def assocGet : List (String × TomlVal) → String → Option TomlVal
  | [], _ => none
  | (k, v) :: t, key => if k = key then some v else assocGet t key

/-- `Value::lookup` of the `toml` crate on an already-split dotted path:
descend through nested tables. -/
def lookupPath : TomlVal → List String → Option TomlVal
  | v, [] => some v
  | .table kvs, key :: rest =>
    match assocGet kvs key with
    | some v => lookupPath v rest
    | none => none
  | .str _, _ :: _ => none
  | .other, _ :: _ => none

/-- The loop over the `package.metadata.winres` table in `parse_cargo_toml`
(src/lib.rs lines 554-561): string values overwrite the property map,
non-string values produce a diagnostic line on standard output. -/
def applyWinres : List (String × TomlVal) → List (String × String) →
    List (String × String) × List Chars
  | [], props => (props, [])
  | (k, v) :: t, props =>
    match v with
    | .str s => applyWinres t (insertProp props k s)
    | _ =>
      let r := applyWinres t props
      (r.1, (("package.metadata.winres.").data ++ k.data ++
        (" is not a string").data) :: r.2)

/-- `parse_cargo_toml` (src/lib.rs lines 545-575).  `cargoFile` is the
content of `Cargo.toml` (`none` when `File::open` or `read_to_string`
fails, which the source propagates with `try!`); `parse` is the external
TOML parser.  Returns the updated property map and the diagnostic lines
written to standard output; every lookup or parse failure is a diagnostic,
never an error. -/
def parse_cargo_toml (cargoFile : Option String) (parse : TomlParseFn)
    (props : List (String × String)) :
    Except Unit (List (String × String) × List Chars) :=
  match cargoFile with
  | none => .error ()
  | some content =>
    match parse content with
    | none => .ok (props, [("parsing error").data])
    | some ml =>
      match assocGet ml "package" with
      | none => .ok (props, [("package section missing").data])
      | some pkg =>
        match lookupPath pkg ["metadata", "winres"] with
        | none => .ok (props, [("package.metadata.winres does not exist").data])
        | some v =>
          match v with
          | .table kvs => .ok (applyWinres kvs props)
          | _ => .ok (props, [("package.metadata.winres is not a table").data])

/-- Byte index (Rust `str::find`) of the first occurrence of `pat` in a
line; indices count UTF-8 bytes, as in Rust. -/
def findSub (pat : Chars) : Chars → Option Nat
  | [] => if pat.isPrefixOf ([] : Chars) then some 0 else none
  | c :: t =>
    if pat.isPrefixOf (c :: t) then some 0
    else (findSub pat t).map (fun i => i + c.utf8Size)

/-- `line.trim().starts_with("KitsRoot")` (src/lib.rs line 523). -/
def kitsRootLine (line : Chars) : Bool :=
  ("KitsRoot").data.isPrefixOf (trimChars line)

/-- The kit-root value extracted from a registry output line
(src/lib.rs lines 524-527): skip `find("REG_SZ") + 6` characters, then
skip whitespace, collect the rest. -/
def extractKit (line : Chars) (i : Nat) : Chars :=
  (line.drop (i + 6)).dropWhile Char.isWhitespace

/-- The line loop of `get_sdk` (src/lib.rs lines 522-541).  `rcExists` is
the filesystem oracle abstracting
`PathBuf::from(kit).join("bin\10.0.15063.0\<arch>\rc.exe").exists()`.
Returns the collected kit list and the lines printed to standard output;
`none` models the panic of `line.find("REG_SZ").unwrap()` on a `KitsRoot`
line without the marker. -/
def sdkLoop (rcExists : Chars → Bool) : List Chars → Option (List Chars × List Chars)
  | [] => some ([], [])
  | line :: rest =>
    if kitsRootLine line then
      match findSub ("REG_SZ").data line with
      | none => none
      | some i =>
        let kit := extractKit line i
        match sdkLoop rcExists rest with
        | none => none
        | some (kits, out) =>
          if rcExists kit then some (kit :: kits, kit :: out)
          else some (kits, out)
    else sdkLoop rcExists rest

/-- `get_sdk` (src/lib.rs lines 513-543).  `regOut` is the decoded standard
output of the registry query (`Except.error` when the `reg` process cannot
be run or its output is not UTF-8, the two `try!` failure paths).  The
outer `Option` is `none` on panic. -/
def get_sdk (regOut : Except Unit String) (rcExists : Chars → Bool) :
    Option (Except Unit (List Chars × List Chars)) :=
  match regOut with
  | .error _ => some (.error ())
  | .ok out =>
    match sdkLoop rcExists (rustLines out.data) with
    | none => none
    | some (kits, stdout) => some (.ok (kits, stdout))

/-- The `VersionInfo` field enumeration (src/lib.rs lines 72-90). -/
inductive VersionInfo where
  | FILEVERSION
  | PRODUCTVERSION
  | FILEOS
  | FILETYPE
  | FILESUBTYPE
  | FILEFLAGSMASK
  | FILEFLAGS
deriving DecidableEq

/-- Rust `{:?}` on a `VersionInfo` value: the variant name. -/
def debugName : VersionInfo → String
  | .FILEVERSION => "FILEVERSION"
  | .PRODUCTVERSION => "PRODUCTVERSION"
  | .FILEOS => "FILEOS"
  | .FILETYPE => "FILETYPE"
  | .FILESUBTYPE => "FILESUBTYPE"
  | .FILEFLAGSMASK => "FILEFLAGSMASK"
  | .FILEFLAGS => "FILEFLAGS"

/-- The configuration record (src/lib.rs lines 92-102).  `version_info`
models `HashMap<VersionInfo, u64>` as a function to `Option Nat`;
`properties` models `HashMap<String, String>` as an association list. -/
structure WindowsResource where
  toolkit_path : String
  properties : List (String × String)
  version_info : VersionInfo → Option Nat
  rc_file : Option String
  icon : Option String
  language : Nat
  manifest : Option String
  manifest_file : Option String
  output_directory : String

/-- `WindowsResource::set` (src/lib.rs lines 226-229). -/
def WindowsResource.set (r : WindowsResource) (name value : String) :
    WindowsResource :=
  { r with properties := insertProp r.properties name value }

/-- `WindowsResource::set_toolkit_path` (src/lib.rs lines 240-243). -/
def WindowsResource.set_toolkit_path (r : WindowsResource) (path : String) :
    WindowsResource :=
  { r with toolkit_path := path }

/-- `WindowsResource::set_language` (src/lib.rs lines 292-295); the source
argument type is `u16`, so callers pass values below `2 ^ 16`. -/
def WindowsResource.set_language (r : WindowsResource) (language : Nat) :
    WindowsResource :=
  { r with language := language }

/-- `WindowsResource::set_icon` (src/lib.rs lines 301-304). -/
def WindowsResource.set_icon (r : WindowsResource) (path : String) :
    WindowsResource :=
  { r with icon := some path }

/-- `WindowsResource::set_version_info` (src/lib.rs lines 308-311):
`HashMap::insert`, an overwrite-or-add update. -/
def WindowsResource.set_version_info (r : WindowsResource)
    (field : VersionInfo) (value : Nat) : WindowsResource :=
  { r with version_info := fun k => if k = field then some value else r.version_info k }

/-- `WindowsResource::set_manifest` (src/lib.rs lines 334-338): clears
`manifest_file`, then sets `manifest`. -/
def WindowsResource.set_manifest (r : WindowsResource) (manifest : String) :
    WindowsResource :=
  { r with manifest_file := none, manifest := some manifest }

/-- `WindowsResource::set_manifest_file` (src/lib.rs lines 346-350): sets
`manifest_file`, then clears `manifest`. -/
def WindowsResource.set_manifest_file (r : WindowsResource) (file : String) :
    WindowsResource :=
  { r with manifest_file := some file, manifest := none }

/-- `WindowsResource::set_resource_file` (src/lib.rs lines 412-415). -/
def WindowsResource.set_resource_file (r : WindowsResource) (path : String) :
    WindowsResource :=
  { r with rc_file := some path }

/-- `WindowsResource::set_output_directory` (src/lib.rs lines 421-424). -/
def WindowsResource.set_output_directory (r : WindowsResource) (path : String) :
    WindowsResource :=
  { r with output_directory := path }

/-- One public setter invocation, for reasoning about arbitrary call
sequences on the aggregator. -/
inductive SetterCall where
  | set (name value : String)
  | set_toolkit_path (path : String)
  | set_language (language : Nat)
  | set_icon (path : String)
  | set_version_info (field : VersionInfo) (value : Nat)
  | set_manifest (manifest : String)
  | set_manifest_file (file : String)
  | set_resource_file (path : String)
  | set_output_directory (path : String)

/-- Apply one setter call. -/
def applyCall (r : WindowsResource) : SetterCall → WindowsResource
  | .set n v => r.set n v
  | .set_toolkit_path p => r.set_toolkit_path p
  | .set_language l => r.set_language l
  | .set_icon p => r.set_icon p
  | .set_version_info f v => r.set_version_info f v
  | .set_manifest m => r.set_manifest m
  | .set_manifest_file f => r.set_manifest_file f
  | .set_resource_file p => r.set_resource_file p
  | .set_output_directory p => r.set_output_directory p

/-- Apply a sequence of setter calls, oldest first. -/
def applyCalls (r : WindowsResource) (calls : List SetterCall) : WindowsResource :=
  calls.foldl applyCall r

/-- Does the call touch the manifest pair? -/
def touchesManifest : SetterCall → Bool
  | .set_manifest _ => true
  | .set_manifest_file _ => true
  | _ => false

/-- The initial property map seeded by the constructor
(src/lib.rs lines 162-169). -/
def mkInitialProps (version name description : String) :
    List (String × String) :=
  insertProp (insertProp (insertProp (insertProp [] "FileVersion" version)
    "ProductVersion" version) "ProductName" name) "FileDescription" description

/-- The version value packed by the constructor (src/lib.rs lines 173-176):
`env::var(..).unwrap().parse().unwrap_or(0) << 48 | .. << 32 | .. << 16`,
with the 64-bit truncation of the Rust shifts made explicit. -/
def packedVersion (major minor patch : String) : Nat :=
  ((((parseU64 major).getD 0) <<< 48) % 2 ^ 64) |||
    ((((parseU64 minor).getD 0) <<< 32) % 2 ^ 64) |||
    ((((parseU64 patch).getD 0) <<< 16) % 2 ^ 64)

/-- The version-info map seeded by the constructor
(src/lib.rs lines 178-184). -/
def defaultVersionInfo (version : Nat) : VersionInfo → Option Nat :=
  fun k =>
    some (match k with
      | .FILEVERSION => version
      | .PRODUCTVERSION => version
      | .FILEOS => 0x00040004
      | .FILETYPE => 1
      | .FILESUBTYPE => 0
      | .FILEFLAGSMASK => 0x3F
      | .FILEFLAGS => 0)

/-- The record and standard-output lines a successful constructor run
produces (src/lib.rs lines 191-201). -/
def finishNew (props : List (String × String)) (version : Nat)
    (outDir : String) (tk : String) (diags sdkOut : List Chars) :
    WindowsResource × List Chars :=
  ({ toolkit_path := tk
     properties := props
     version_info := defaultVersionInfo version
     rc_file := none
     icon := none
     language := 0
     manifest := none
     manifest_file := none
     output_directory := outDir }, diags ++ sdkOut)

/-- `WindowsResource::new` (src/lib.rs lines 158-202).  The result is
`none` when any of the source's `unwrap` calls panics: a missing
`CARGO_PKG_VERSION`/`NAME`/`DESCRIPTION` or `_MAJOR`/`_MINOR`/`_PATCH`
variable, a failing `parse_cargo_toml`, a panic inside `get_sdk`, or
`get_sdk` returning an empty list (`v.pop().unwrap()`).  The second
component is the standard output produced during construction. -/
def new (env : Env) (cargoFile : Option String) (parse : TomlParseFn)
    (regOut : Except Unit String) (rcExists : Chars → Bool) :
    Option (WindowsResource × List Chars) :=
  match env "CARGO_PKG_VERSION", env "CARGO_PKG_NAME",
      env "CARGO_PKG_DESCRIPTION" with
  | some pv, some pn, some pd =>
    (match parse_cargo_toml cargoFile parse (mkInitialProps pv pn pd) with
     | .error _ => none
     | .ok (props, diags) =>
       match env "CARGO_PKG_VERSION_MAJOR", env "CARGO_PKG_VERSION_MINOR",
           env "CARGO_PKG_VERSION_PATCH" with
       | some ma, some mi, some pa =>
         (match get_sdk regOut rcExists with
          | none => none
          | some (.error _) =>
            some (finishNew props (packedVersion ma mi pa)
              ((env "OUT_DIR").getD ".") "" diags [])
          | some (.ok (kits, sdkOut)) =>
            match kits.getLast? with
            | none => none
            | some k =>
              some (finishNew props (packedVersion ma mi pa)
                ((env "OUT_DIR").getD ".") (String.mk k) diags sdkOut))
       | _, _, _ => none)
  | _, _, _ => none

/-- One line of the `VERSIONINFO` value loop (src/lib.rs lines 362-376):
`FILEVERSION`/`PRODUCTVERSION` print the four extracted 16-bit words in
decimal, every other field prints `{:?} {:#x}`. -/
def versionValueLine (k : VersionInfo) (v : Nat) : Chars :=
  match k with
  | .FILEVERSION | .PRODUCTVERSION =>
    (debugName k).data ++ (" ").data ++ decRepr ((v >>> 48) % 2 ^ 16) ++
      (", ").data ++ decRepr ((v >>> 32) % 2 ^ 16) ++
      (", ").data ++ decRepr ((v >>> 16) % 2 ^ 16) ++
      (", ").data ++ decRepr (v % 2 ^ 16)
  | _ => (debugName k).data ++ (" 0x").data ++ rustHex v

/-- All seven possible `version_info` keys.  The `HashMap` iteration order
of the source is unspecified; the claims only depend on which entries are
present, so the model iterates in declaration order. -/
def allVersionInfoKeys : List VersionInfo :=
  [.FILEVERSION, .PRODUCTVERSION, .FILEOS, .FILETYPE, .FILESUBTYPE,
   .FILEFLAGSMASK, .FILEFLAGS]

/-- The lines of the `version_info` loop of `write_resource_file`
(src/lib.rs lines 362-376): one line per entry present in the map. -/
def versionLines (r : WindowsResource) : List Chars :=
  allVersionInfoKeys.filterMap fun k =>
    (r.version_info k).map (versionValueLine k)

/-- The lines of the property loop of `write_resource_file`
(src/lib.rs lines 379-383): a `VALUE` line per property with a non-empty
value. -/
def propertyLines (r : WindowsResource) : List Chars :=
  r.properties.filterMap fun kv =>
    if kv.2 = "" then none
    else some (("VALUE \"").data ++ kv.1.data ++ ("\", \"").data ++
      kv.2.data ++ ("\"").data)

/-- The optional `1 ICON` line (src/lib.rs lines 389-391). -/
def iconLines (r : WindowsResource) : List Chars :=
  match r.icon with
  | some i => [("1 ICON \"").data ++ i.data ++ ("\"").data]
  | none => []

/-- The manifest block of `write_resource_file` (src/lib.rs lines
392-403): guarded by `FILETYPE` being present in `version_info`; an inline
manifest is emitted line by line with quotes doubled and whitespace
trimmed, a manifest file as a single unbraced line. -/
def manifestLines (r : WindowsResource) : List Chars :=
  match r.version_info VersionInfo.FILETYPE with
  | none => []
  | some e =>
    match r.manifest with
    | some m =>
      (decRepr e ++ (" 24").data) :: ("\x7b").data ::
        ((rustLines m.data).map emitManifestLine ++ [("\x7d").data])
    | none =>
      match r.manifest_file with
      | some mf => [decRepr e ++ (" 24 \"").data ++ mf.data ++ ("\"").data]
      | none => []

/-- `WindowsResource::write_resource_file` (src/lib.rs lines 353-405),
modelled as the list of text lines written to the `.rc` file. -/
def write_resource_file (r : WindowsResource) : List Chars :=
  [("#pragma code_page(65001)").data, ("1 VERSIONINFO").data]
    ++ versionLines r
    ++ [("\x7b").data, ("BLOCK \"StringFileInfo\"").data]
    ++ [("\x7b").data,
        ("BLOCK \"").data ++ fmtHex4 r.language ++ ("04b0\"").data,
        ("\x7b").data]
    ++ propertyLines r
    ++ [("\x7d").data, ("\x7d").data]
    ++ [("BLOCK \"VarFileInfo\" \x7b").data]
    ++ [("VALUE \"Translation\", 0x").data ++ rustHex r.language ++
        (", 0x04b0").data]
    ++ [("\x7d").data, ("\x7d").data]
    ++ iconLines r
    ++ manifestLines r

/-- The `cargo:rustc-link-search` directive (src/lib.rs lines 452, 506). -/
def linkSearchLine (outDir : String) : Chars :=
  ("cargo:rustc-link-search=native=").data ++ outDir.data

/-- The MSVC `cargo:rustc-link-lib` directive (src/lib.rs line 507). -/
def linkLibMsvc : Chars :=
  ("cargo:rustc-link-lib=dylib=resource").data

/-- The GNU `cargo:rustc-link-lib` directive (src/lib.rs line 453). -/
def linkLibGnu : Chars :=
  ("cargo:rustc-link-lib=static=resource").data

/-- Standard output of the MSVC `compile_with_toolkit` (src/lib.rs lines
484-509): `spawnOk` is whether `rc.exe` could be started, `statusOk` its
exit status; the two directives are printed only on success. -/
def compile_with_toolkit_msvc (r : WindowsResource)
    (spawnOk statusOk : Bool) : Except Unit (List Chars) :=
  if spawnOk then
    if statusOk then .ok [linkSearchLine r.output_directory, linkLibMsvc]
    else .error ()
  else .error ()

/-- Standard output of the GNU `compile_with_toolkit` (src/lib.rs lines
426-456): `windres.exe` then `ar.exe`; the two directives are printed only
when both succeed. -/
def compile_with_toolkit_gnu (r : WindowsResource)
    (windresSpawnOk windresOk arSpawnOk arOk : Bool) :
    Except Unit (List Chars) :=
  if windresSpawnOk then
    if windresOk then
      if arSpawnOk then
        if arOk then .ok [linkSearchLine r.output_directory, linkLibGnu]
        else .error ()
      else .error ()
    else .error ()
  else .error ()

/-- A full build-script run on the MSVC path: construct the aggregator,
apply caller setters, compile.  The result is the accumulated standard
output of the whole run (`none` models a panic, `Except.error` a
propagated error). -/
def runMsvc (env : Env) (cargoFile : Option String) (parse : TomlParseFn)
    (regOut : Except Unit String) (rcExists : Chars → Bool)
    (calls : List SetterCall) (spawnOk statusOk : Bool) :
    Option (Except Unit (List Chars)) :=
  match new env cargoFile parse regOut rcExists with
  | none => none
  | some (r0, out0) =>
    match compile_with_toolkit_msvc (applyCalls r0 calls) spawnOk statusOk with
    | .error _ => some (.error ())
    | .ok out1 => some (.ok (out0 ++ out1))

/-- A full build-script run on the GNU path. -/
def runGnu (env : Env) (cargoFile : Option String) (parse : TomlParseFn)
    (regOut : Except Unit String) (rcExists : Chars → Bool)
    (calls : List SetterCall) (wSpawnOk wOk aSpawnOk aOk : Bool) :
    Option (Except Unit (List Chars)) :=
  match new env cargoFile parse regOut rcExists with
  | none => none
  | some (r0, out0) =>
    match compile_with_toolkit_gnu (applyCalls r0 calls) wSpawnOk wOk aSpawnOk aOk with
    | .error _ => some (.error ())
    | .ok out1 => some (.ok (out0 ++ out1))

/-- A benign test environment: every variable is set to `"1"`. -/
def testEnv : Env := fun _ => some "1"

/-- A test TOML parser whose output always carries an empty
`package.metadata.winres` table. -/
def testParse : TomlParseFn := fun _ =>
  some [("package", .table [("metadata", .table [("winres", .table [])])])]

/-- The concrete record produced by `new` on the benign test inputs. -/
def rTest : WindowsResource :=
  { toolkit_path := ""
    properties := [("FileVersion", "1"), ("ProductVersion", "1"),
      ("ProductName", "1"), ("FileDescription", "1")]
    version_info := defaultVersionInfo (packedVersion "1" "1" "1")
    rc_file := none
    icon := none
    language := 0
    manifest := none
    manifest_file := none
    output_directory := "1" }

/-- An environment where only the decomposed major component is missing. -/
def envNoMajor : Env := fun s =>
  if s = "CARGO_PKG_VERSION_MAJOR" then none else some "1"

/-- An environment where every variable is set but non-numeric. -/
def envAlpha : Env := fun _ => some "abc"

/-- The record produced by `new` on the benign test inputs when the SDK
locator discovers the single existing kit root `C:\Kits`. -/
def rTestKit : WindowsResource :=
  { rTest with toolkit_path := String.mk ("C:\\Kits").data }

/-- At most one of the two manifest slots is set (spec §3, invariants). -/
def manifestExclusive (r : WindowsResource) : Prop :=
  r.manifest = none ∨ r.manifest_file = none

/-- The SDK-locator outcomes under which the constructor does not panic:
the locator fails, or it succeeds with a non-empty list. -/
def sdkUsable (regOut : Except Unit String) (rcExists : Chars → Bool) : Prop :=
  get_sdk regOut rcExists = some (.error ()) ∨
    ∃ kits sdkOut k, get_sdk regOut rcExists = some (.ok (kits, sdkOut)) ∧
      kits.getLast? = some k

/-- The kit roots `get_sdk` should collect from the given registry-output
lines: for each `KitsRoot` line carrying the `REG_SZ` marker, the extracted
value, kept when the resource compiler exists beneath it, in line order. -/
def expectedKits (rcExists : Chars → Bool) (lines : List Chars) : List Chars :=
  lines.filterMap fun l =>
    if kitsRootLine l then
      match findSub ("REG_SZ").data l with
      | none => none
      | some i =>
        if rcExists (extractKit l i) then some (extractKit l i) else none
    else none

lemma lor_eq_add {x y k : Nat} (hx : x % 2 ^ k = 0) (hy : y < 2 ^ k) :
    x ||| y = x + y := by
  apply Nat.eq_of_testBit_eq
  intro i
  have hadd : x + y = 2 ^ k * (x / 2 ^ k) + y := by
    have := Nat.div_add_mod x (2 ^ k)
    omega
  rw [Nat.testBit_or, hadd, Nat.testBit_mul_pow_two_add _ hy]
  by_cases hik : i < k
  · have hxbit : x.testBit i = false := by
      have h := Nat.testBit_mod_two_pow x k i
      rw [hx] at h
      simp [Nat.zero_testBit, hik] at h
      exact h
    simp [hik, hxbit]
  · have hybit : y.testBit i = false :=
      Nat.testBit_lt_two_pow
        (lt_of_lt_of_le hy (Nat.pow_le_pow_right (by omega) (by omega)))
    have hxbit : x.testBit i = (x / 2 ^ k).testBit (i - k) := by
      have h1 : (x >>> k).testBit (i - k) = x.testBit (k + (i - k)) :=
        Nat.testBit_shiftRight x
      rw [Nat.shiftRight_eq_div_pow] at h1
      rw [h1]
      congr 1
      omega
    simp [hik, hybit, hxbit]

lemma packVersion_eq_sum {a b c d : Nat} (ha : a < 2 ^ 16) (hb : b < 2 ^ 16)
    (hc : c < 2 ^ 16) (hd : d < 2 ^ 16) :
    packVersion a b c d = a * 2 ^ 48 + b * 2 ^ 32 + c * 2 ^ 16 + d := by
  have e16 : (2 : Nat) ^ 16 = 65536 := by norm_num
  have e32 : (2 : Nat) ^ 32 = 4294967296 := by norm_num
  have e48 : (2 : Nat) ^ 48 = 281474976710656 := by norm_num
  unfold packVersion
  rw [Nat.shiftLeft_eq, Nat.shiftLeft_eq, Nat.shiftLeft_eq]
  have h1 : a * 2 ^ 48 ||| b * 2 ^ 32 = a * 2 ^ 48 + b * 2 ^ 32 := by
    apply @lor_eq_add _ _ 48
    · exact Nat.mul_mod_left a (2 ^ 48)
    · rw [e32, e48]
      rw [e16] at hb
      omega
  rw [h1]
  have h2 : a * 2 ^ 48 + b * 2 ^ 32 ||| c * 2 ^ 16 =
      a * 2 ^ 48 + b * 2 ^ 32 + c * 2 ^ 16 := by
    apply @lor_eq_add _ _ 32
    · have h : a * 2 ^ 48 + b * 2 ^ 32 = (a * 2 ^ 16 + b) * 2 ^ 32 := by ring
      rw [h, Nat.mul_mod_left]
    · rw [e16, e32]
      rw [e16] at hc
      omega
  rw [h2]
  apply @lor_eq_add _ _ 16
  · have h : a * 2 ^ 48 + b * 2 ^ 32 + c * 2 ^ 16 =
        (a * 2 ^ 32 + b * 2 ^ 16 + c) * 2 ^ 16 := by ring
    rw [h, Nat.mul_mod_left]
  · exact hd

/-- C1: for every 16-bit quadruple, packing into a 64-bit version value as
done by the constructor and `set_version_info` callers and re-extracting
the four words as done by `write_resource_file` yields the quadruple back. -/
theorem version_pack_roundtrip {a b c d : Nat} (ha : a < 2 ^ 16)
    (hb : b < 2 ^ 16) (hc : c < 2 ^ 16) (hd : d < 2 ^ 16) :
    extractWords (packVersion a b c d) = (a, b, c, d) := by
  rw [packVersion_eq_sum ha hb hc hd]
  unfold extractWords
  rw [Nat.shiftRight_eq_div_pow, Nat.shiftRight_eq_div_pow,
    Nat.shiftRight_eq_div_pow]
  have e16 : (2 : Nat) ^ 16 = 65536 := by norm_num
  have e32 : (2 : Nat) ^ 32 = 4294967296 := by norm_num
  have e48 : (2 : Nat) ^ 48 = 281474976710656 := by norm_num
  simp only [e16, e32, e48] at ha hb hc hd ⊢
  simp only [Prod.mk.injEq]
  refine ⟨?_, ?_, ?_, ?_⟩ <;> omega

/-- C1 witness: the round-trip evaluated at the quadruple (1, 2, 3, 65535). -/
theorem version_pack_roundtrip_witness :
    extractWords (packVersion 1 2 3 65535) = (1, 2, 3, 65535) :=
  version_pack_roundtrip (by norm_num) (by norm_num) (by norm_num) (by norm_num)

lemma new_shape {env : Env} {cf : Option String} {parse : TomlParseFn}
    {ro : Except Unit String} {re : Chars → Bool}
    {p : WindowsResource × List Chars}
    (h : new env cf parse ro re = some p) :
    ∃ props version outDir tk diags sdkOut,
      p = finishNew props version outDir tk diags sdkOut := by
  unfold new at h
  repeat' split at h
  all_goals try exact Option.noConfusion h
  all_goals exact ⟨_, _, _, _, _, _, (Option.some.inj h).symm⟩

lemma applyCall_manifest_eq (r : WindowsResource) (c : SetterCall)
    (h : touchesManifest c = false) :
    (applyCall r c).manifest = r.manifest ∧
      (applyCall r c).manifest_file = r.manifest_file := by
  cases c <;> first
    | exact ⟨rfl, rfl⟩
    | simp [touchesManifest] at h

lemma applyCalls_manifest_eq :
    ∀ (calls : List SetterCall) (r : WindowsResource),
      (∀ c ∈ calls, touchesManifest c = false) →
      (applyCalls r calls).manifest = r.manifest ∧
        (applyCalls r calls).manifest_file = r.manifest_file
  | [], r, _ => ⟨rfl, rfl⟩
  | c :: t, r, h => by
    have hc := applyCall_manifest_eq r c (h c (by simp))
    have ht := applyCalls_manifest_eq t (applyCall r c)
      (fun x hx => h x (by simp [hx]))
    simp only [applyCalls, List.foldl_cons] at ht ⊢
    exact ⟨ht.1.trans hc.1, ht.2.trans hc.2⟩

lemma applyCall_exclusive (r : WindowsResource) (c : SetterCall)
    (h : manifestExclusive r) : manifestExclusive (applyCall r c) := by
  cases c <;> first
    | exact h
    | exact Or.inr rfl
    | exact Or.inl rfl

lemma applyCalls_exclusive :
    ∀ (calls : List SetterCall) (r : WindowsResource),
      manifestExclusive r → manifestExclusive (applyCalls r calls)
  | [], _, h => h
  | c :: t, r, h => by
    simp only [applyCalls, List.foldl_cons]
    exact applyCalls_exclusive t (applyCall r c) (applyCall_exclusive r c h)

/-- C2: after construction and any sequence of setter calls, at most one of
`manifest` and `manifest_file` is set, and it is the one set by the most
recent of the two manifest setters; each of the two setters clears the
other slot. -/
theorem manifest_exclusivity :
    (∀ (env : Env) (cargoFile : Option String) (parse : TomlParseFn)
        (regOut : Except Unit String) (rcExists : Chars → Bool)
        (r : WindowsResource) (out : List Chars),
      new env cargoFile parse regOut rcExists = some (r, out) →
      ∀ calls, manifestExclusive (applyCalls r calls))
    ∧ (∀ (r : WindowsResource) (m : String) (calls₁ calls₂ : List SetterCall),
        (∀ c ∈ calls₂, touchesManifest c = false) →
        (applyCalls r (calls₁ ++ SetterCall.set_manifest m :: calls₂)).manifest
            = some m
        ∧ (applyCalls r
            (calls₁ ++ SetterCall.set_manifest m :: calls₂)).manifest_file
            = none)
    ∧ (∀ (r : WindowsResource) (f : String) (calls₁ calls₂ : List SetterCall),
        (∀ c ∈ calls₂, touchesManifest c = false) →
        (applyCalls r
            (calls₁ ++ SetterCall.set_manifest_file f :: calls₂)).manifest_file
            = some f
        ∧ (applyCalls r
            (calls₁ ++ SetterCall.set_manifest_file f :: calls₂)).manifest
            = none) := by
  refine ⟨?_, ?_, ?_⟩
  · intro env cargoFile parse regOut rcExists r out h calls
    obtain ⟨props, version, outDir, tk, diags, sdkOut, hp⟩ := new_shape h
    have hm : r.manifest = none := by
      have := congrArg (fun q => q.1.manifest) hp
      simpa [finishNew] using this
    exact applyCalls_exclusive calls r (Or.inl hm)
  · intro r m calls₁ calls₂ h
    have hsplit : applyCalls r (calls₁ ++ SetterCall.set_manifest m :: calls₂)
        = applyCalls (applyCall (applyCalls r calls₁)
            (SetterCall.set_manifest m)) calls₂ := by
      simp [applyCalls, List.foldl_append]
    have hpres := applyCalls_manifest_eq calls₂
      (applyCall (applyCalls r calls₁) (SetterCall.set_manifest m)) h
    rw [hsplit]
    exact ⟨hpres.1, hpres.2⟩
  · intro r f calls₁ calls₂ h
    have hsplit : applyCalls r
        (calls₁ ++ SetterCall.set_manifest_file f :: calls₂)
        = applyCalls (applyCall (applyCalls r calls₁)
            (SetterCall.set_manifest_file f)) calls₂ := by
      simp [applyCalls, List.foldl_append]
    have hpres := applyCalls_manifest_eq calls₂
      (applyCall (applyCalls r calls₁) (SetterCall.set_manifest_file f)) h
    rw [hsplit]
    exact ⟨hpres.2, hpres.1⟩

/-- C2 witness: the invariant after a concrete construction and call
sequence, and the most-recent-wins property on a concrete interleaving. -/
theorem manifest_exclusivity_witness :
    manifestExclusive (applyCalls rTest
      [SetterCall.set_manifest "a", SetterCall.set_manifest_file "b"])
    ∧ (applyCalls rTest
        ([SetterCall.set_manifest_file "b"] ++
          SetterCall.set_manifest "m" :: [SetterCall.set_icon "i"])).manifest
        = some "m" :=
  ⟨manifest_exclusivity.1 testEnv (some "") testParse (Except.error ())
      (fun _ => false) rTest [] rfl _,
   (manifest_exclusivity.2.1 rTest "m" [SetterCall.set_manifest_file "b"]
      [SetterCall.set_icon "i"] (by decide)).1⟩

lemma new_unfold {env : Env} {cf : Option String} {parse : TomlParseFn}
    {ro : Except Unit String} {re : Chars → Bool}
    {pv pn pd ma mi pa : String} {props : List (String × String)}
    {diags : List Chars}
    (hv : env "CARGO_PKG_VERSION" = some pv)
    (hn : env "CARGO_PKG_NAME" = some pn)
    (hd : env "CARGO_PKG_DESCRIPTION" = some pd)
    (hp : parse_cargo_toml cf parse (mkInitialProps pv pn pd)
      = .ok (props, diags))
    (hma : env "CARGO_PKG_VERSION_MAJOR" = some ma)
    (hmi : env "CARGO_PKG_VERSION_MINOR" = some mi)
    (hpa : env "CARGO_PKG_VERSION_PATCH" = some pa) :
    new env cf parse ro re =
      match get_sdk ro re with
      | none => none
      | some (.error _) =>
        some (finishNew props (packedVersion ma mi pa)
          ((env "OUT_DIR").getD ".") "" diags [])
      | some (.ok (kits, sdkOut)) =>
        match kits.getLast? with
        | none => none
        | some k =>
          some (finishNew props (packedVersion ma mi pa)
            ((env "OUT_DIR").getD ".") (String.mk k) diags sdkOut) := by
  unfold new
  simp only [hv, hn, hd, hp, hma, hmi, hpa]

lemma parse_cargo_toml_some_ok (content : String) (parse : TomlParseFn)
    (props : List (String × String)) :
    ∃ props' diags,
      parse_cargo_toml (some content) parse props = .ok (props', diags) := by
  unfold parse_cargo_toml
  repeat' split
  all_goals first
    | exact ⟨_, _, rfl⟩
    | simp_all

/-- C3 counterexample: an environment with the decomposed major component
missing (every other variable set) makes the constructor panic
(`env::var(..).unwrap()`), instead of succeeding with a zero component. -/
theorem new_panics_on_missing_major :
    envNoMajor "CARGO_PKG_VERSION" = some "1"
    ∧ envNoMajor "CARGO_PKG_NAME" = some "1"
    ∧ envNoMajor "CARGO_PKG_VERSION_MAJOR" = none
    ∧ new envNoMajor (some "") testParse (Except.error ())
        (fun _ => false) = none :=
  ⟨rfl, rfl, rfl, rfl⟩

/-- C3 (amended): for every environment in which the decomposed
version-component variables are present but non-numeric, the constructor
succeeds and uses zero for each unparsable component when packing
`FILEVERSION` and `PRODUCTVERSION`; a missing component variable instead
makes the constructor panic. -/
theorem nonnumeric_components_default_zero :
    ∀ (env : Env) (content : String) (parse : TomlParseFn)
      (ro : Except Unit String) (re : Chars → Bool) (pv pn pd ma mi pa : String),
    env "CARGO_PKG_VERSION" = some pv →
    env "CARGO_PKG_NAME" = some pn →
    env "CARGO_PKG_DESCRIPTION" = some pd →
    env "CARGO_PKG_VERSION_MAJOR" = some ma →
    env "CARGO_PKG_VERSION_MINOR" = some mi →
    env "CARGO_PKG_VERSION_PATCH" = some pa →
    parseU64 ma = none → parseU64 mi = none → parseU64 pa = none →
    sdkUsable ro re →
    ∃ r out, new env (some content) parse ro re = some (r, out)
      ∧ r.version_info VersionInfo.FILEVERSION = some 0
      ∧ r.version_info VersionInfo.PRODUCTVERSION = some 0 := by
  intro env content parse ro re pv pn pd ma mi pa hv hn hd hma hmi hpa
    hz1 hz2 hz3 hsdk
  obtain ⟨props, diags, hp⟩ :=
    parse_cargo_toml_some_ok content parse (mkInitialProps pv pn pd)
  have hzero : packedVersion ma mi pa = 0 := by
    simp [packedVersion, hz1, hz2, hz3, Nat.zero_shiftLeft]
  rw [new_unfold hv hn hd hp hma hmi hpa]
  rcases hsdk with hsdk | ⟨kits, sdkOut, k, hsdk, hk⟩
  · simp only [hsdk]
    exact ⟨_, _, rfl, by simp [finishNew, hzero, defaultVersionInfo],
      by simp [finishNew, hzero, defaultVersionInfo]⟩
  · simp only [hsdk, hk]
    exact ⟨_, _, rfl, by simp [finishNew, hzero, defaultVersionInfo],
      by simp [finishNew, hzero, defaultVersionInfo]⟩

/-- C3 witness: construction with all components set to the non-numeric
string `"abc"` succeeds and packs a zero version. -/
theorem nonnumeric_components_default_zero_witness :
    ∃ r out, new envAlpha (some "") testParse (Except.error ())
        (fun _ => false) = some (r, out)
      ∧ r.version_info VersionInfo.FILEVERSION = some 0
      ∧ r.version_info VersionInfo.PRODUCTVERSION = some 0 :=
  nonnumeric_components_default_zero envAlpha "" testParse (Except.error ())
    (fun _ => false) "abc" "abc" "abc" "abc" "abc" "abc"
    rfl rfl rfl rfl rfl rfl rfl rfl rfl (Or.inl rfl)

/-- C4 counterexample: when the SDK locator succeeds with an empty list the
constructor panics (`v.pop().unwrap()`), instead of defaulting
`toolkit_path` to the empty string. -/
theorem new_panics_on_empty_sdk_list :
    get_sdk (Except.ok "") (fun _ => false) = some (Except.ok ([], []))
    ∧ new testEnv (some "") testParse (Except.ok "") (fun _ => false)
        = none :=
  ⟨rfl, rfl⟩

/-- C4 (amended): the constructor sets `toolkit_path` to the last entry of
the SDK locator's list when that list is non-empty, and to the empty
string when the locator fails (failure is non-fatal); when the locator
succeeds with an empty list the constructor panics. -/
theorem toolkit_path_selection :
    ∀ (env : Env) (content : String) (parse : TomlParseFn)
      (ro : Except Unit String) (re : Chars → Bool)
      (pv pn pd ma mi pa : String) (kits sdkOut : List Chars) (k : Chars),
    env "CARGO_PKG_VERSION" = some pv →
    env "CARGO_PKG_NAME" = some pn →
    env "CARGO_PKG_DESCRIPTION" = some pd →
    env "CARGO_PKG_VERSION_MAJOR" = some ma →
    env "CARGO_PKG_VERSION_MINOR" = some mi →
    env "CARGO_PKG_VERSION_PATCH" = some pa →
    (get_sdk ro re = some (.error ()) →
      ∃ r out, new env (some content) parse ro re = some (r, out)
        ∧ r.toolkit_path = "")
    ∧ (get_sdk ro re = some (.ok (kits, sdkOut)) → kits.getLast? = some k →
      ∃ r out, new env (some content) parse ro re = some (r, out)
        ∧ r.toolkit_path = String.mk k)
    ∧ (get_sdk ro re = some (.ok ([], sdkOut)) →
      new env (some content) parse ro re = none) := by
  intro env content parse ro re pv pn pd ma mi pa kits sdkOut k
    hv hn hd hma hmi hpa
  obtain ⟨props, diags, hp⟩ :=
    parse_cargo_toml_some_ok content parse (mkInitialProps pv pn pd)
  refine ⟨?_, ?_, ?_⟩
  · intro hsdk
    rw [new_unfold hv hn hd hp hma hmi hpa]
    simp only [hsdk]
    exact ⟨_, _, rfl, rfl⟩
  · intro hsdk hk
    rw [new_unfold hv hn hd hp hma hmi hpa]
    simp only [hsdk, hk]
    exact ⟨_, _, rfl, rfl⟩
  · intro hsdk
    rw [new_unfold hv hn hd hp hma hmi hpa]
    simp only [hsdk]
    rfl

/-- C4 witness: a registry output with one existing kit root makes the
constructor pick that root as `toolkit_path`. -/
theorem toolkit_path_selection_witness :
    ∃ r out, new testEnv (some "") testParse
        (Except.ok "KitsRoot REG_SZ C:\\K") (fun _ => true) = some (r, out)
      ∧ r.toolkit_path = String.mk ("C:\\K").data :=
  (toolkit_path_selection testEnv "" testParse
      (Except.ok "KitsRoot REG_SZ C:\\K") (fun _ => true)
      "1" "1" "1" "1" "1" "1" [("C:\\K").data] [("C:\\K").data]
      ("C:\\K").data rfl rfl rfl rfl rfl rfl).2.1 rfl rfl

/-- C5 counterexample: with every required environment variable set, an
absent (unopenable) package manifest makes the constructor panic
(`parse_cargo_toml(..).unwrap()` after a failing `File::open`), instead of
completing with a diagnostic. -/
theorem new_panics_on_absent_cargo_toml :
    testEnv "CARGO_PKG_VERSION" = some "1"
    ∧ testEnv "CARGO_PKG_NAME" = some "1"
    ∧ testEnv "CARGO_PKG_DESCRIPTION" = some "1"
    ∧ testEnv "CARGO_PKG_VERSION_MAJOR" = some "1"
    ∧ new testEnv none testParse (Except.error ()) (fun _ => false) = none :=
  ⟨rfl, rfl, rfl, rfl, rfl⟩

/-- C5 (amended): whenever all required environment variables are set and
the package manifest file is present and readable, the constructor
succeeds regardless of the manifest's contents — a malformed manifest, a
missing section, or non-string values are reported as diagnostics and
never propagate as errors; an absent or unreadable manifest file instead
makes the constructor panic. -/
theorem manifest_diagnostics_nonfatal :
    ∀ (env : Env) (content : String) (parse : TomlParseFn)
      (ro : Except Unit String) (re : Chars → Bool) (pv pn pd ma mi pa : String),
    env "CARGO_PKG_VERSION" = some pv →
    env "CARGO_PKG_NAME" = some pn →
    env "CARGO_PKG_DESCRIPTION" = some pd →
    env "CARGO_PKG_VERSION_MAJOR" = some ma →
    env "CARGO_PKG_VERSION_MINOR" = some mi →
    env "CARGO_PKG_VERSION_PATCH" = some pa →
    sdkUsable ro re →
    (∃ props' diags,
        parse_cargo_toml (some content) parse (mkInitialProps pv pn pd)
          = .ok (props', diags))
    ∧ (∃ r out, new env (some content) parse ro re = some (r, out))
    ∧ new env none parse ro re = none := by
  intro env content parse ro re pv pn pd ma mi pa hv hn hd hma hmi hpa hsdk
  obtain ⟨props, diags, hp⟩ :=
    parse_cargo_toml_some_ok content parse (mkInitialProps pv pn pd)
  refine ⟨⟨props, diags, hp⟩, ?_, ?_⟩
  · rw [new_unfold hv hn hd hp hma hmi hpa]
    rcases hsdk with hsdk | ⟨kits, sdkOut, k, hsdk, hk⟩
    · simp only [hsdk]
      exact ⟨_, _, rfl⟩
    · simp only [hsdk, hk]
      exact ⟨_, _, rfl⟩
  · unfold new
    rw [hv, hn, hd]
    rfl

/-- C5 witness: construction with a present (empty) manifest succeeds;
with an absent manifest it panics. -/
theorem manifest_diagnostics_nonfatal_witness :
    (∃ r out, new testEnv (some "") testParse (Except.error ())
        (fun _ => false) = some (r, out))
    ∧ new testEnv none testParse (Except.error ()) (fun _ => false)
        = none :=
  ⟨(manifest_diagnostics_nonfatal testEnv "" testParse (Except.error ())
      (fun _ => false) "1" "1" "1" "1" "1" "1"
      rfl rfl rfl rfl rfl rfl (Or.inl rfl)).2.1,
   (manifest_diagnostics_nonfatal testEnv "" testParse (Except.error ())
      (fun _ => false) "1" "1" "1" "1" "1" "1"
      rfl rfl rfl rfl rfl rfl (Or.inl rfl)).2.2⟩

lemma sdkLoop_out_eq_kits (rcE : Chars → Bool) :
    ∀ (lines : List Chars) (kits out : List Chars),
      sdkLoop rcE lines = some (kits, out) → out = kits := by
  intro lines
  induction lines with
  | nil =>
    intro kits out h
    unfold sdkLoop at h
    injection h with h'
    injection h' with ha hb
    rw [← ha, ← hb]
  | cons line rest ih =>
    intro kits out h
    unfold sdkLoop at h
    split at h
    · split at h
      · exact Option.noConfusion h
      · split at h
        · exact Option.noConfusion h
        · dsimp only at h
          split at h
          · injection h with h'
            injection h' with ha hb
            have hio := ih _ _ (by assumption)
            rw [← ha, ← hb, hio]
          · injection h with h'
            injection h' with ha hb
            have hio := ih _ _ (by assumption)
            rw [← ha, ← hb]
            exact hio
    · exact ih _ _ h

lemma get_sdk_ok_out_eq_kits {ro : Except Unit String} {re : Chars → Bool}
    {kits sdkOut : List Chars}
    (h : get_sdk ro re = some (.ok (kits, sdkOut))) : sdkOut = kits := by
  unfold get_sdk at h
  split at h
  · exact absurd (Option.some.inj h) (by simp)
  · split at h
    · exact Option.noConfusion h
    · have h' := Option.some.inj h
      injection h' with h''
      injection h'' with ha hb
      rw [← hb, ← ha]
      exact sdkLoop_out_eq_kits re _ _ _ (by assumption)

/-- C6 counterexample: a successful MSVC run on inputs where the SDK
locator finds one existing kit root writes a third standard-output line
(the kit root, printed by `get_sdk`) that is neither of the two link
directives and is not a manifest-metadata diagnostic (this run's
diagnostics are empty). -/
theorem stdout_extra_kit_line :
    runMsvc testEnv (some "") testParse
        (Except.ok "  KitsRoot10    REG_SZ    C:\\Kits\n") (fun _ => true)
        [] true true
      = some (.ok [("C:\\Kits").data, linkSearchLine "1", linkLibMsvc])
    ∧ parse_cargo_toml (some "") testParse (mkInitialProps "1" "1" "1")
      = .ok (mkInitialProps "1" "1" "1", [])
    ∧ ("C:\\Kits").data ≠ linkSearchLine "1"
    ∧ ("C:\\Kits").data ≠ linkLibMsvc :=
  ⟨rfl, rfl, by decide, by decide⟩

/-- C6 (amended): on every successful run the program writes to standard
output the manifest-metadata reader's diagnostic lines, then one line per
discovered kit root printed by the SDK locator, then exactly the two link
directives (`dylib=resource` for MSVC, `static=resource` for GNU) — the
kit-root lines being output beyond what the original claim allows. -/
theorem stdout_on_success :
    ∀ (env : Env) (cf : Option String) (parse : TomlParseFn)
      (ro : Except Unit String) (re : Chars → Bool) (calls : List SetterCall)
      (spawnOk statusOk wS wO aS aO : Bool)
      (pv pn pd ma mi pa : String) (props : List (String × String))
      (diags : List Chars) (r0 : WindowsResource) (out0 : List Chars),
    env "CARGO_PKG_VERSION" = some pv →
    env "CARGO_PKG_NAME" = some pn →
    env "CARGO_PKG_DESCRIPTION" = some pd →
    parse_cargo_toml cf parse (mkInitialProps pv pn pd) = .ok (props, diags) →
    env "CARGO_PKG_VERSION_MAJOR" = some ma →
    env "CARGO_PKG_VERSION_MINOR" = some mi →
    env "CARGO_PKG_VERSION_PATCH" = some pa →
    new env cf parse ro re = some (r0, out0) →
    (∀ kits sdkOut, get_sdk ro re = some (.ok (kits, sdkOut)) →
      out0 = diags ++ kits)
    ∧ (get_sdk ro re = some (.error ()) → out0 = diags)
    ∧ (∀ finalOut, runMsvc env cf parse ro re calls spawnOk statusOk
          = some (.ok finalOut) →
        finalOut = out0 ++ [linkSearchLine
          (applyCalls r0 calls).output_directory, linkLibMsvc])
    ∧ (∀ finalOut, runGnu env cf parse ro re calls wS wO aS aO
          = some (.ok finalOut) →
        finalOut = out0 ++ [linkSearchLine
          (applyCalls r0 calls).output_directory, linkLibGnu]) := by
  intro env cf parse ro re calls spawnOk statusOk wS wO aS aO
    pv pn pd ma mi pa props diags r0 out0 hv hn hd hp hma hmi hpa h0
  have hnew := h0
  rw [new_unfold hv hn hd hp hma hmi hpa] at hnew
  refine ⟨?_, ?_, ?_, ?_⟩
  · intro kits sdkOut hsdk
    have hok := get_sdk_ok_out_eq_kits hsdk
    rw [hsdk] at hnew
    simp only [] at hnew
    cases hl : kits.getLast? with
    | none =>
      rw [hl] at hnew
      exact Option.noConfusion hnew
    | some k =>
      rw [hl] at hnew
      have h' := Option.some.inj hnew
      have hout := congrArg Prod.snd h'
      simp only [finishNew] at hout
      rw [← hout, hok]
  · intro hsdk
    rw [hsdk] at hnew
    simp only [] at hnew
    have h' := Option.some.inj hnew
    have hout := congrArg Prod.snd h'
    simp only [finishNew] at hout
    rw [← hout, List.append_nil]
  · intro finalOut hrun
    unfold runMsvc at hrun
    rw [h0] at hrun
    cases spawnOk <;> cases statusOk
    all_goals first
      | exact Except.noConfusion (Option.some.inj hrun)
      | exact (Except.ok.inj (Option.some.inj hrun)).symm
  · intro finalOut hrun
    unfold runGnu at hrun
    rw [h0] at hrun
    cases wS <;> cases wO <;> cases aS <;> cases aO
    all_goals first
      | exact Except.noConfusion (Option.some.inj hrun)
      | exact (Except.ok.inj (Option.some.inj hrun)).symm

/-- C6 witness: the amended statement evaluated on a concrete successful
MSVC run whose locator discovers the kit root `C:\Kits`. -/
theorem stdout_on_success_witness :
    [("C:\\Kits").data, linkSearchLine "1", linkLibMsvc]
      = [("C:\\Kits").data] ++ [linkSearchLine
          (applyCalls rTestKit []).output_directory, linkLibMsvc] :=
  (stdout_on_success testEnv (some "") testParse
      (Except.ok "  KitsRoot10    REG_SZ    C:\\Kits\n") (fun _ => true)
      [] true true true true true true "1" "1" "1" "1" "1" "1"
      (mkInitialProps "1" "1" "1") [] rTestKit [("C:\\Kits").data]
      rfl rfl rfl rfl rfl rfl rfl rfl).2.2.1 _ rfl

/-- C7 counterexample: a registry output whose `KitsRoot` line lacks the
`REG_SZ` type marker makes the SDK locator panic
(`line.find("REG_SZ").unwrap()`) instead of returning a list. -/
theorem get_sdk_panics_without_reg_sz :
    kitsRootLine ("KitsRoot X").data = true
    ∧ get_sdk (Except.ok "KitsRoot X") (fun _ => false) = none :=
  ⟨rfl, rfl⟩

lemma sdkLoop_eq_expected (rcE : Chars → Bool) :
    ∀ lines : List Chars,
      (∀ line ∈ lines, kitsRootLine line = true →
        (findSub ("REG_SZ").data line).isSome = true) →
      sdkLoop rcE lines
        = some (expectedKits rcE lines, expectedKits rcE lines) := by
  intro lines
  induction lines with
  | nil => intro _; rfl
  | cons line rest ih =>
    intro h
    have hrest := ih fun l hl hk => h l (List.mem_cons_of_mem _ hl) hk
    simp only [sdkLoop, expectedKits, List.filterMap_cons] at hrest ⊢
    cases hk : kitsRootLine line with
    | false => simpa [hk] using hrest
    | true =>
      simp only [hk, if_true]
      cases hf : findSub ("REG_SZ").data line with
      | none =>
        have hcontra := h line (List.mem_cons_self _ _) hk
        rw [hf] at hcontra
        exact Bool.noConfusion hcontra
      | some i =>
        rw [hrest]
        by_cases he : rcE (extractKit line i)
        · simp [he]
        · simp [he]

/-- C7 (amended): for every registry output in which each `KitsRoot` line
carries the `REG_SZ` marker, the SDK locator returns the existing kit
roots in insertion order (also echoing each to standard output), and fails
only when the registry tool cannot be run or its output cannot be decoded;
a `KitsRoot` line without the marker instead makes it panic. -/
theorem get_sdk_collects_existing_kits :
    ∀ (s : String) (rcE : Chars → Bool),
    (∀ line ∈ rustLines s.data, kitsRootLine line = true →
      (findSub ("REG_SZ").data line).isSome = true) →
    get_sdk (Except.ok s) rcE
      = some (.ok (expectedKits rcE (rustLines s.data),
          expectedKits rcE (rustLines s.data)))
    ∧ get_sdk (Except.error ()) rcE = some (.error ()) := by
  intro s rcE h
  constructor
  · have hl := sdkLoop_eq_expected rcE (rustLines s.data) h
    simp only [get_sdk, hl]
  · rfl

/-- C7 witness: the locator on a concrete two-line registry output with an
existing kit root. -/
theorem get_sdk_collects_existing_kits_witness :
    get_sdk (Except.ok "KitsRoot REG_SZ C:\\K\nnoise") (fun _ => true)
      = some (Except.ok ([("C:\\K").data], [("C:\\K").data])) := by
  have h := (get_sdk_collects_existing_kits "KitsRoot REG_SZ C:\\K\nnoise"
    (fun _ => true) (by decide)).1
  rw [h]
  rfl

lemma hexVal_hexDigit {d : Nat} (h : d < 16) : hexVal (hexDigit d) = d := by
  interval_cases d <;> rfl

lemma hexRevAux_fuel : ∀ f₁ f₂ n : Nat, n ≤ f₁ → n ≤ f₂ →
    hexRevAux f₁ n = hexRevAux f₂ n := by
  intro f₁
  induction f₁ with
  | zero =>
    intro f₂ n h1 h2
    interval_cases n
    cases f₂ <;> rfl
  | succ f ih =>
    intro f₂ n h1 h2
    match n, f₂ with
    | 0, f₂ => cases f₂ <;> rfl
    | m + 1, 0 => omega
    | m + 1, g + 1 =>
      simp only [hexRevAux]
      congr 1
      exact ih g ((m + 1) / 16) (by omega) (by omega)

lemma hexRev_succ (n : Nat) :
    hexRev (n + 1) = hexDigit ((n + 1) % 16) :: hexRev ((n + 1) / 16) := by
  unfold hexRev
  simp only [hexRevAux]
  congr 1
  exact hexRevAux_fuel n ((n + 1) / 16) ((n + 1) / 16) (by omega) (by omega)

lemma hexRev_length_le : ∀ (k n : Nat), n < 16 ^ k → (hexRev n).length ≤ k := by
  intro k
  induction k with
  | zero =>
    intro n hn
    interval_cases n
    simp [hexRev, hexRevAux]
  | succ k ih =>
    intro n hn
    match n with
    | 0 => simp [hexRev, hexRevAux]
    | m + 1 =>
      rw [hexRev_succ]
      simp only [List.length_cons]
      have hdiv : (m + 1) / 16 < 16 ^ k := by
        have hmul : m + 1 < 16 ^ k * 16 := by
          rw [pow_succ] at hn
          omega
        exact (Nat.div_lt_iff_lt_mul (by omega)).mpr hmul
      have := ih _ hdiv
      omega

lemma foldl_hexRev : ∀ n : Nat, ∀ a : Nat,
    List.foldl (fun x c => x * 16 + hexVal c) a (hexRev n).reverse
      = a * 16 ^ (hexRev n).length + n := by
  intro n
  induction n using Nat.strong_induction_on with
  | _ n ih =>
    intro a
    match n with
    | 0 => simp [hexRev, hexRevAux]
    | m + 1 =>
      have hdiv : (m + 1) / 16 < m + 1 := Nat.div_lt_self (by omega) (by omega)
      rw [hexRev_succ]
      simp only [List.reverse_cons, List.foldl_append, List.length_cons]
      rw [ih _ hdiv a]
      simp only [List.foldl_cons, List.foldl_nil]
      rw [hexVal_hexDigit (Nat.mod_lt _ (by omega))]
      have hps : (16 : Nat) ^ ((hexRev ((m + 1) / 16)).length + 1)
          = 16 ^ (hexRev ((m + 1) / 16)).length * 16 := pow_succ 16 _
      rw [hps, ← Nat.mul_assoc]
      omega

lemma parseHexBE_rustHex (n : Nat) : parseHexBE (rustHex n) = n := by
  unfold parseHexBE rustHex
  by_cases h0 : n = 0
  · rw [if_pos h0, h0]
    rfl
  · rw [if_neg h0]
    have := foldl_hexRev n 0
    simpa using this

lemma foldl_zeros : ∀ z : Nat,
    List.foldl (fun x c => x * 16 + hexVal c) 0 (List.replicate z '0') = 0 := by
  intro z
  induction z with
  | zero => rfl
  | succ z ih =>
    have h0 : hexVal '0' = 0 := rfl
    simpa [List.replicate_succ, h0] using ih

lemma parseHexBE_fmtHex4 (n : Nat) : parseHexBE (fmtHex4 n) = n := by
  unfold fmtHex4
  unfold parseHexBE
  rw [List.foldl_append, foldl_zeros]
  have := parseHexBE_rustHex n
  unfold parseHexBE at this
  exact this

lemma rustHex_length_le {n : Nat} (h : n < 2 ^ 16) :
    1 ≤ (rustHex n).length ∧ (rustHex n).length ≤ 4 := by
  unfold rustHex
  by_cases h0 : n = 0
  · simp [h0]
  · rw [if_neg h0]
    simp only [List.length_reverse]
    constructor
    · match n, h0 with
      | m + 1, _ =>
        rw [hexRev_succ]
        simp
    · refine hexRev_length_le 4 n ?_
      have e2 : (2 : Nat) ^ 16 = 65536 := by norm_num
      have e4 : (16 : Nat) ^ 4 = 65536 := by norm_num
      omega

lemma fmtHex4_length {n : Nat} (h : n < 2 ^ 16) : (fmtHex4 n).length = 4 := by
  unfold fmtHex4
  have hl := rustHex_length_le h
  simp only [List.length_append, List.length_replicate]
  omega

lemma hexDigit_is_hex {d : Nat} (h : d < 16) :
    ('0' ≤ hexDigit d ∧ hexDigit d ≤ '9')
      ∨ ('a' ≤ hexDigit d ∧ hexDigit d ≤ 'f') := by
  interval_cases d <;> decide

lemma hexRev_chars : ∀ n : Nat, ∀ c ∈ hexRev n, ∃ d, d < 16 ∧ c = hexDigit d := by
  intro n
  induction n using Nat.strong_induction_on with
  | _ n ih =>
    match n with
    | 0 => intro c hc; simp [hexRev, hexRevAux] at hc
    | m + 1 =>
      intro c hc
      rw [hexRev_succ] at hc
      simp only [List.mem_cons] at hc
      rcases hc with hc | hc
      · exact ⟨(m + 1) % 16, Nat.mod_lt _ (by omega), hc⟩
      · exact ih _ (Nat.div_lt_self (by omega) (by omega)) c hc

lemma fmtHex4_chars {n : Nat} (c : Char) (hc : c ∈ fmtHex4 n) :
    ('0' ≤ c ∧ c ≤ '9') ∨ ('a' ≤ c ∧ c ≤ 'f') := by
  unfold fmtHex4 at hc
  rw [List.mem_append] at hc
  rcases hc with hc | hc
  · have h0 : c = '0' := List.eq_of_mem_replicate hc
    subst h0
    exact Or.inl (by decide)
  · unfold rustHex at hc
    by_cases h0 : n = 0
    · rw [if_pos h0] at hc
      simp only [List.mem_singleton] at hc
      subst hc
      exact Or.inl (by decide)
    · rw [if_neg h0] at hc
      rw [List.mem_reverse] at hc
      obtain ⟨d, hd, rfl⟩ := hexRev_chars n c hc
      exact hexDigit_is_hex hd

/-- C8: for every 16-bit language value held in the configuration, the
emitter writes the inner `StringFileInfo` block header as
`BLOCK "<LLLL>04b0"` where `<LLLL>` is the language rendered as exactly
four lowercase hexadecimal digits with leading zeros (and those four
digits decode back to the language value). -/
theorem language_block_name_format :
    ∀ (r : WindowsResource) (L : Nat), r.language = L → L < 2 ^ 16 →
    (("BLOCK \"").data ++ fmtHex4 L ++ ("04b0\"").data) ∈ write_resource_file r
    ∧ (fmtHex4 L).length = 4
    ∧ (∀ c ∈ fmtHex4 L, ('0' ≤ c ∧ c ≤ '9') ∨ ('a' ≤ c ∧ c ≤ 'f'))
    ∧ parseHexBE (fmtHex4 L) = L := by
  intro r L hL hlt
  refine ⟨?_, fmtHex4_length hlt, fun c hc => fmtHex4_chars c hc,
    parseHexBE_fmtHex4 L⟩
  subst hL
  simp [write_resource_file, List.mem_append, List.mem_cons]

/-- C8 witness: language 0x0409 (English US) yields the block name
`040904b0`. -/
theorem language_block_name_format_witness :
    (("BLOCK \"").data ++ fmtHex4 1033 ++ ("04b0\"").data)
        ∈ write_resource_file (rTest.set_language 1033)
    ∧ (fmtHex4 1033).length = 4
    ∧ parseHexBE (fmtHex4 1033) = 1033
    ∧ fmtHex4 1033 = ("0409").data := by
  have h := language_block_name_format (rTest.set_language 1033) 1033 rfl
    (by norm_num)
  exact ⟨h.1, h.2.1, h.2.2.2, rfl⟩

lemma count_doubleQuotes (s : Chars) :
    (doubleQuotes s).count '"' = 2 * s.count '"' := by
  induction s with
  | nil => rfl
  | cons c t ih =>
    by_cases hc : c = '"'
    · subst hc
      simp only [doubleQuotes, if_pos rfl, List.count_cons, ih]
      simp
      omega
    · simp only [doubleQuotes, if_neg hc, List.count_cons, ih]
      simp [hc]

lemma count_dropWhile_ws (l : Chars) :
    (l.dropWhile Char.isWhitespace).count '"' = l.count '"' := by
  induction l with
  | nil => rfl
  | cons c t ih =>
    by_cases hw : Char.isWhitespace c = true
    · have hc : c ≠ '"' := by
        intro hq
        subst hq
        exact Bool.noConfusion hw
      rw [List.dropWhile_cons, if_pos hw, ih, List.count_cons]
      simp [hc]
    · rw [List.dropWhile_cons, if_neg hw]

lemma count_trimChars (l : Chars) : (trimChars l).count '"' = l.count '"' := by
  unfold trimChars
  rw [List.count_reverse, count_dropWhile_ws, List.count_reverse,
    count_dropWhile_ws]

lemma count_emitManifestLine (s : Chars) :
    (emitManifestLine s).count '"' = 2 * s.count '"' + 2 := by
  unfold emitManifestLine
  rw [List.count_cons, List.count_append, count_trimChars, count_doubleQuotes]
  simp

lemma doubleQuotes_eq_flatMap (s : Chars) :
    doubleQuotes s = s.flatMap fun c => if c = '"' then [c, c] else [c] := by
  induction s with
  | nil => rfl
  | cons c t ih =>
    by_cases hc : c = '"'
    · subst hc
      simp [doubleQuotes, List.flatMap_cons, ih]
    · simp [doubleQuotes, hc, List.flatMap_cons, ih]

/-- C9: for an inline manifest the emitter writes one output line per
source line of the manifest; each output line is the source line with
every literal double-quote doubled and surrounding whitespace trimmed,
wrapped in one surrounding pair of quotes, so a line with k literal quotes
yields 2k quote characters at the corresponding positions plus the
surrounding pair. -/
theorem manifest_quote_doubling :
    (∀ s : Chars, doubleQuotes s
      = s.flatMap fun c => if c = '"' then [c, c] else [c])
    ∧ (∀ s : Chars, (emitManifestLine s).count '"' = 2 * s.count '"' + 2)
    ∧ (∀ (r : WindowsResource) (e : Nat) (m : String),
        r.version_info VersionInfo.FILETYPE = some e → r.manifest = some m →
        manifestLines r = (decRepr e ++ (" 24").data) :: ("\x7b").data ::
            ((rustLines m.data).map emitManifestLine ++ [("\x7d").data])
        ∧ ((rustLines m.data).map emitManifestLine).length
            = (rustLines m.data).length) := by
  refine ⟨doubleQuotes_eq_flatMap, count_emitManifestLine, ?_⟩
  intro r e m he hm
  constructor
  · simp only [manifestLines, he, hm]
  · exact List.length_map _ _

/-- C9 witness: the quote count on a concrete line with two quotes, and
the emitted block for a concrete inline manifest. -/
theorem manifest_quote_doubling_witness :
    (emitManifestLine ("<a b=\"c\"/>").data).count '"'
        = 2 * (("<a b=\"c\"/>").data).count '"' + 2
    ∧ manifestLines (rTest.set_manifest "<x/>")
        = (decRepr 1 ++ (" 24").data) :: ("\x7b").data ::
            ((rustLines ("<x/>").data).map emitManifestLine ++
              [("\x7d").data]) := by
  refine ⟨manifest_quote_doubling.2.1 _, ?_⟩
  exact (manifest_quote_doubling.2.2 (rTest.set_manifest "<x/>") 1 "<x/>"
    rfl rfl).1

lemma applyCall_version_info_total (r : WindowsResource) (c : SetterCall)
    (h : ∀ k, (r.version_info k).isSome = true) :
    ∀ k, ((applyCall r c).version_info k).isSome = true := by
  cases c <;> first
    | exact h
    | (rename_i f v
       intro k
       simp only [applyCall, WindowsResource.set_version_info]
       by_cases hk : k = f
       · simp [hk]
       · simp only [if_neg hk]
         exact h k)

lemma applyCalls_version_info_total :
    ∀ (calls : List SetterCall) (r : WindowsResource),
      (∀ k, (r.version_info k).isSome = true) →
      ∀ k, ((applyCalls r calls).version_info k).isSome = true
  | [], _, h => h
  | c :: t, r, h => by
    simp only [applyCalls, List.foldl_cons]
    exact applyCalls_version_info_total t (applyCall r c)
      (applyCall_version_info_total r c h)

lemma versionLines_length (r : WindowsResource)
    (h : ∀ k, (r.version_info k).isSome = true) :
    (versionLines r).length = 7 := by
  obtain ⟨v1, h1⟩ := Option.isSome_iff_exists.mp (h .FILEVERSION)
  obtain ⟨v2, h2⟩ := Option.isSome_iff_exists.mp (h .PRODUCTVERSION)
  obtain ⟨v3, h3⟩ := Option.isSome_iff_exists.mp (h .FILEOS)
  obtain ⟨v4, h4⟩ := Option.isSome_iff_exists.mp (h .FILETYPE)
  obtain ⟨v5, h5⟩ := Option.isSome_iff_exists.mp (h .FILESUBTYPE)
  obtain ⟨v6, h6⟩ := Option.isSome_iff_exists.mp (h .FILEFLAGSMASK)
  obtain ⟨v7, h7⟩ := Option.isSome_iff_exists.mp (h .FILEFLAGS)
  simp [versionLines, allVersionInfoKeys, List.filterMap_cons,
    h1, h2, h3, h4, h5, h6, h7]

lemma manifestLines_ne_nil (r : WindowsResource) (m : String)
    (hft : (r.version_info VersionInfo.FILETYPE).isSome = true)
    (hm : r.manifest = some m) : manifestLines r ≠ [] := by
  obtain ⟨e, he⟩ := Option.isSome_iff_exists.mp hft
  simp [manifestLines, he, hm]

/-- C10: after construction and any sequence of setter calls the
version-info map contains all seven fields — the constructor seeds all
seven and `set_version_info` only inserts or overwrites, never removes —
so the emitter's `FILETYPE`-presence guard always passes: a set manifest
is always emitted and the `VERSIONINFO` block has exactly seven value
lines. -/
theorem version_info_always_complete :
    ∀ (env : Env) (cf : Option String) (parse : TomlParseFn)
      (ro : Except Unit String) (re : Chars → Bool)
      (r0 : WindowsResource) (out0 : List Chars) (calls : List SetterCall),
    new env cf parse ro re = some (r0, out0) →
    (∀ k, ((applyCalls r0 calls).version_info k).isSome = true)
    ∧ (versionLines (applyCalls r0 calls)).length = 7
    ∧ (∀ m, (applyCalls r0 calls).manifest = some m →
        manifestLines (applyCalls r0 calls) ≠ []) := by
  intro env cf parse ro re r0 out0 calls h0
  have htot0 : ∀ k, (r0.version_info k).isSome = true := by
    obtain ⟨props, version, outDir, tk, diags, sdkOut, hp⟩ := new_shape h0
    have hv : r0.version_info = defaultVersionInfo version := by
      have := congrArg (fun q => q.1.version_info) hp
      simpa [finishNew] using this
    intro k
    rw [hv]
    rfl
  have htot := applyCalls_version_info_total calls r0 htot0
  exact ⟨htot, versionLines_length _ htot,
    fun m hm => manifestLines_ne_nil _ m (htot VersionInfo.FILETYPE) hm⟩

/-- C10 witness: the invariant evaluated after a concrete construction and
a `set_manifest` call. -/
theorem version_info_always_complete_witness :
    ((applyCalls rTest [SetterCall.set_manifest "<x/>"]).version_info
        VersionInfo.FILETYPE).isSome = true
    ∧ (versionLines (applyCalls rTest
        [SetterCall.set_manifest "<x/>"])).length = 7
    ∧ manifestLines (applyCalls rTest [SetterCall.set_manifest "<x/>"])
        ≠ [] := by
  have h := version_info_always_complete testEnv (some "") testParse
    (Except.error ()) (fun _ => false) rTest [] [SetterCall.set_manifest "<x/>"]
    rfl
  exact ⟨h.1 VersionInfo.FILETYPE, h.2.1, h.2.2 "<x/>" rfl⟩

end Winres
